import Mathlib

/-!
Shallow embedding of the remote user-reconciliation layer of a mobile
team-collaboration client (`src/app/actions/remote/user.ts`) and of the
`ChannelInfo` entity definition, together with theorems settling the
specification claims about them.

External collaborators (network client, per-server registry, store operator,
forced-logout handler, role refresher) are modelled as oracles supplied
through an `Env` value; observable side effects are collected in an
explicit effect trace returned alongside each operation's result.
-/

namespace Mattermost

/-- Errors are modelled as strings (the layer only stores and returns them). -/
abbrev Err := String

/-- A remote user profile: identifier plus space-separated role-name string.
Dedup by a JS `Set` is keyed by full profile identity, modelled here as
structural equality on all fields. -/
structure UserProfile where
  id : String
  roles : String
deriving DecidableEq, Repr

structure Team where
  id : String
deriving DecidableEq, Repr

structure TeamMembership where
  team_id : String
  roles : String
deriving DecidableEq, Repr

structure TeamUnread where
  team_id : String
  msg_count : Nat
  mention_count : Nat
deriving DecidableEq, Repr

structure Preference where
  category : String
  name : String
  value : String
deriving DecidableEq, Repr

/-- Derived My-Team record built inside `loadMe` from a team-unread entry and
the matching team membership. -/
structure MyTeam where
  id : String
  roles : String
  is_unread : Bool
  mentions_count : Nat
deriving DecidableEq, Repr

structure Role where
  name : String
deriving DecidableEq, Repr

structure SystemRecord where
  id : String
  value : String
deriving DecidableEq, Repr

/-- The raw row of a local user record (`user._raw`), sent to `patchMe`. -/
structure RawUser where
  id : String
deriving DecidableEq, Repr

/-- Local persisted user record; `roles` is its pre-update role string. -/
structure UserModel where
  raw : RawUser
  roles : String
deriving DecidableEq, Repr

/-- JS `Set.prototype.add` on a list kept in insertion order: append the
element unless it is already present. -/
def jsSetInsert [DecidableEq α] (acc : List α) (a : α) : List α :=
  if a ∈ acc then acc else acc ++ [a]

/-- `Array.from(new Set(l))`: deduplicate keeping first occurrences, in
insertion order. -/
def jsSetDedup [DecidableEq α] (l : List α) : List α :=
  l.foldl jsSetInsert []

/-- A prepared-but-unwritten local record, tagged by entity category. -/
inductive DBModel where
  | team (t : Team)
  | teamMembership (m : TeamMembership)
  | myTeam (m : MyTeam)
  | system (s : SystemRecord)
  | user (u : UserProfile)
  | preference (p : Preference)
  | role (r : Role)
deriving DecidableEq, Repr

/-- Observable side effects of a reconciliation call, in order of occurrence. -/
inductive Effect where
  /-- `operator.handleUsers` with `prepareRecordsOnly: false` (immediate write). -/
  | handleUsersWrite (users : List UserProfile)
  /-- `operator.batchRecords` (the single batch commit of staged records). -/
  | batchCommit (models : List DBModel)
  /-- `forceLogoutIfNecessary(serverUrl, error)` was invoked. -/
  | forceLogoutCheck (serverUrl : String) (e : Err)
  /-- remote `client.getRolesByNames` call with the requested names. -/
  | roleFetchCall (names : List String)
  /-- `fetchRolesIfNeeded(serverUrl, roles)` side effect was triggered. -/
  | fetchRolesIfNeeded (serverUrl : String) (roles : List String)
  /-- `logError(error)` was invoked. -/
  | logError (e : Err)
deriving DecidableEq, Repr

/-- Modelled from the spec: the local store operator's staging side
(`handle<Category>` with `prepareRecordsOnly: true`). The operator code is not
part of the excerpt; per the spec each staging call returns a
prepared-but-unwritten record list for exactly the payload it was given, and a
local-store error may propagate as a thrown exception. A failure flag per
category models such a throw. -/
structure Operator where
  teamErr : Option Err := none
  teamMembershipErr : Option Err := none
  myTeamErr : Option Err := none
  systemErr : Option Err := none
  userErr : Option Err := none
  preferenceErr : Option Err := none
  roleErr : Option Err := none
deriving DecidableEq, Repr

/-- Outcome of one staging call: throw the configured error, or return the
prepared records. -/
def stageOutcome (err : Option Err) (models : List DBModel) : Except Err (List DBModel) :=
  match err with
  | some e => .error e
  | none => .ok models

def Operator.handleTeam (o : Operator) (teams : List Team) : Except Err (List DBModel) :=
  stageOutcome o.teamErr (teams.map DBModel.team)

def Operator.handleTeamMemberships (o : Operator) (teamMemberships : List TeamMembership) :
    Except Err (List DBModel) :=
  stageOutcome o.teamMembershipErr (teamMemberships.map DBModel.teamMembership)

def Operator.handleMyTeam (o : Operator) (myTeams : List MyTeam) : Except Err (List DBModel) :=
  stageOutcome o.myTeamErr (myTeams.map DBModel.myTeam)

def Operator.handleSystem (o : Operator) (systems : List SystemRecord) :
    Except Err (List DBModel) :=
  stageOutcome o.systemErr (systems.map DBModel.system)

/-- `operator.handleUsers` with `prepareRecordsOnly: true`. -/
def Operator.handleUsersStaged (o : Operator) (users : List UserProfile) :
    Except Err (List DBModel) :=
  stageOutcome o.userErr (users.map DBModel.user)

def Operator.handlePreferences (o : Operator) (preferences : List Preference) :
    Except Err (List DBModel) :=
  stageOutcome o.preferenceErr (preferences.map DBModel.preference)

def Operator.handleRole (o : Operator) (roles : List Role) : Except Err (List DBModel) :=
  stageOutcome o.roleErr (roles.map DBModel.role)

/-- An operator none of whose staging calls throws. -/
def okOperator : Operator := {}

/-- Modelled from the spec: `prepareUsers` (from `@queries/servers/user`, not in
the excerpt) stages upsert records for the given users via the operator's
staged `handleUsers`, returning a falsy value when the user list is empty
(the caller guards with `if (prepare)`). -/
def prepareUsers (o : Operator) (users : List UserProfile) :
    Option (Except Err (List DBModel)) :=
  if users.isEmpty then none else some (o.handleUsersStaged users)

/-- The per-server network client: each remote method resolves with data or
rejects with an error. Config and license payloads are modelled in their
JSON-serialized form (the layer only ever `JSON.stringify`s them). -/
structure Client where
  getMe : Except Err UserProfile
  getProfilesInChannel : String → Except Err (List UserProfile)
  attachDevice : String → Except Err Unit
  getMyTeams : Except Err (List Team)
  getMyTeamMembers : Except Err (List TeamMembership)
  getMyTeamUnreads : Except Err (List TeamUnread)
  getMyPreferences : Except Err (List Preference)
  getClientConfigOld : Except Err String
  getClientLicenseOld : Except Err String
  getRolesByNames : List String → Except Err (List Role)
  patchMe : RawUser → Except Err UserProfile

/-- One entry of `DatabaseManager.serverDatabases`: a database handle together
with its operator (the handle itself has no observable behavior here). -/
structure ServerDatabase where
  operator : Operator

/-- Modelled from the spec: the per-server resource registry.
`NetworkManager.getClient` throws when no client is registered (modelled as
`none`); `DatabaseManager.serverDatabases[url]` may be absent. -/
structure Env where
  getClient : String → Option Client
  serverDatabases : String → Option ServerDatabase

/-- Modelled from the spec: the error thrown by `NetworkManager.getClient`
when the server was never registered ("client not found" condition). -/
def clientNotFoundError (serverUrl : String) : Err :=
  "client for " ++ serverUrl ++ " not found"

structure MyUserRequest where
  user : Option UserProfile := none
  error : Option Err := none
deriving DecidableEq, Repr

structure ProfilesInChannelRequest where
  channelId : String
  users : Option (List UserProfile) := none
  error : Option Err := none
deriving DecidableEq, Repr

structure ProfilesPerChannelRequest where
  data : Option (List ProfilesInChannelRequest) := none
  error : Option Err := none
deriving DecidableEq, Repr

structure LoadMeArgs where
  deviceToken : Option String := none
  user : Option UserProfile := none
deriving DecidableEq, Repr

structure LoadMeResult where
  currentUser : Option UserProfile := none
  error : Option Err := none
deriving DecidableEq, Repr

structure UpdateMeResult where
  data : Option UserProfile := none
  error : Option Err := none
deriving DecidableEq, Repr

/-- `fetchMe(serverUrl, fetchOnly)`. The non-staged upsert
(`handleUsers` with `prepareRecordsOnly: false`) is fire-and-forget in the
source (its promise is not awaited), so it is recorded as an effect and does
not fail the call. -/
def fetchMe (env : Env) (serverUrl : String) (fetchOnly : Bool := false) :
    MyUserRequest × List Effect :=
  match env.getClient serverUrl with
  | none => ({error := some (clientNotFoundError serverUrl)}, [])
  | some client =>
    match client.getMe with
    | .error e => ({error := some e}, [.forceLogoutCheck serverUrl e])
    | .ok user =>
      if fetchOnly then ({user := some user}, [])
      else
        match env.serverDatabases serverUrl with
        | some _ => ({user := some user}, [.handleUsersWrite [user]])
        | none => ({user := some user}, [])

/-- `fetchProfilesInChannel(serverUrl, channelId, excludeUserId, fetchOnly)`. -/
def fetchProfilesInChannel (env : Env) (serverUrl : String) (channelId : String)
    (excludeUserId : Option String := none) (fetchOnly : Bool := false) :
    ProfilesInChannelRequest × List Effect :=
  match env.getClient serverUrl with
  | none => ({channelId, error := some (clientNotFoundError serverUrl)}, [])
  | some client =>
    match client.getProfilesInChannel channelId with
    | .error e => ({channelId, error := some e}, [.forceLogoutCheck serverUrl e])
    | .ok users =>
      let uniqueUsers := jsSetDedup users
      let persisted : Except Err (List Effect) :=
        if fetchOnly then .ok []
        else
          match env.serverDatabases serverUrl with
          | none => .ok []
          | some sdb =>
            match prepareUsers sdb.operator
                (uniqueUsers.filter fun u => some u.id ≠ excludeUserId) with
            | none => .ok []
            | some (.error e) => .error e
            | some (.ok models) =>
              if models.length ≠ 0 then .ok [.batchCommit models] else .ok []
      match persisted with
      | .error e => ({channelId, error := some e}, [.forceLogoutCheck serverUrl e])
      | .ok effects => ({channelId, users := some uniqueUsers}, effects)

/-- One step of the cumulative `Set<UserProfile>` built by
`fetchProfilesPerChannels`: add the entry's users (when present and
non-empty, the `item.users?.length` guard) in order. -/
def addChannelUsers (acc : List UserProfile) (item : ProfilesInChannelRequest) :
    List UserProfile :=
  match item.users with
  | some us => if us.length ≠ 0 then us.foldl jsSetInsert acc else acc
  | none => acc

/-- The cumulative `Set<UserProfile>` built by `fetchProfilesPerChannels`:
every entry's users added in order. -/
def collectChannelUsers (data : List ProfilesInChannelRequest) : List UserProfile :=
  data.foldl addChannelUsers []

/-- `fetchProfilesPerChannels(serverUrl, channelIds, excludeUserId, fetchOnly)`:
fan-out of fetch-only per-channel calls, then one combined staged upsert and
batch commit. -/
def fetchProfilesPerChannels (env : Env) (serverUrl : String) (channelIds : List String)
    (excludeUserId : Option String := none) (fetchOnly : Bool := false) :
    ProfilesPerChannelRequest × List Effect :=
  let results := channelIds.map fun id =>
    fetchProfilesInChannel env serverUrl id excludeUserId true
  let data := results.map Prod.fst
  let innerEffects := (results.map Prod.snd).flatten
  let persisted : Except Err (List Effect) :=
    if fetchOnly then .ok []
    else
      match env.serverDatabases serverUrl with
      | none => .ok []
      | some sdb =>
        match prepareUsers sdb.operator
            ((collectChannelUsers data).filter fun u => some u.id ≠ excludeUserId) with
        | none => .ok []
        | some (.error e) => .error e
        | some (.ok models) =>
          if models.length ≠ 0 then .ok [.batchCommit models] else .ok []
  match persisted with
  | .error e => ({error := some e}, innerEffects)
  | .ok effects => ({data := some data}, innerEffects ++ effects)

/-- Modelled from the spec: the system key identifiers
(`Database.SYSTEM_IDENTIFIERS`, whose constants file is not in the excerpt)
for the serialized config, serialized license and current-user-id rows. -/
def SYSTEM_CONFIG : String := "config"

def SYSTEM_LICENSE : String := "license"

def SYSTEM_CURRENT_USER_ID : String := "currentUserId"

/-- The My-Team derivation inside `loadMe`: one record per team-unread entry,
joined with the first membership whose team id matches (role defaults to the
empty string when unmatched). -/
def deriveMyTeams (teamUnreads : List TeamUnread) (teamMemberships : List TeamMembership) :
    List MyTeam :=
  teamUnreads.map fun unread =>
    let matchingTeam := teamMemberships.find? fun team => team.team_id == unread.team_id
    { id := unread.team_id
      roles := (matchingTeam.map TeamMembership.roles).getD ""
      is_unread := decide (unread.msg_count > 0)
      mentions_count := unread.mention_count }

/-- The role accumulation loops inside `loadMe`: every token of the current
user's role string, then every token of every membership's role string. -/
def loadMeRoleTokens (currentUser : UserProfile) (teamMemberships : List TeamMembership) :
    List String :=
  currentUser.roles.splitOn " " ++
    (teamMemberships.map fun teamMember => teamMember.roles.splitOn " ").flatten

/-- The deduplicated role-name set `rolesToLoad = new Set<string>(roles)`. -/
def loadMeRolesToLoad (currentUser : UserProfile) (teamMemberships : List TeamMembership) :
    List String :=
  jsSetDedup (loadMeRoleTokens currentUser teamMemberships)

structure SixRequestData where
  teams : List Team
  teamMemberships : List TeamMembership
  teamUnreads : List TeamUnread
  preferences : List Preference
  config : String
  license : String

/-- The six-request `Promise.all` join of `loadMe` (all-or-nothing: any single
rejection aborts the whole step). -/
def sixRequestJoin (client : Client) : Except Err SixRequestData := do
  let teams ← client.getMyTeams
  let teamMemberships ← client.getMyTeamMembers
  let teamUnreads ← client.getMyTeamUnreads
  let preferences ← client.getMyPreferences
  let config ← client.getClientConfigOld
  let license ← client.getClientLicenseOld
  return { teams, teamMemberships, teamUnreads, preferences, config, license }

/-- The final `Promise.all` over the staged-record preparations: first
rejection (in array order) wins. -/
def exceptSequence (l : List (Except Err (List DBModel))) :
    Except Err (List (List DBModel)) :=
  match l with
  | [] => .ok []
  | x :: xs => do
    let v ← x
    let vs ← exceptSequence xs
    return v :: vs

/-- The role-resolution paragraph of `loadMe`: compute `rolesToLoad`, fetch
the role definitions when the set is non-empty, and stage them; returns the
staged role records (or the thrown error) together with the remote-call
effects observed. -/
def loadMeRoleStep (client : Client) (operator : Operator) (currentUser : UserProfile)
    (teamMemberships : List TeamMembership) : Except Err (List DBModel) × List Effect :=
  let rolesToLoad := loadMeRolesToLoad currentUser teamMemberships
  if rolesToLoad.length > 0 then
    match client.getRolesByNames rolesToLoad with
    | .error e => (.error e, [.roleFetchCall rolesToLoad])
    | .ok rolesByName =>
      if rolesByName.length ≠ 0 then
        (operator.handleRole rolesByName, [.roleFetchCall rolesToLoad])
      else
        (.ok [], [.roleFetchCall rolesToLoad])
  else (.ok [], [])

/-- The post-authentication phase of `loadMe` (everything inside the second
`try`): six-request join, record preparation, role resolution, and the single
batch commit. -/
def loadMeMain (client : Client) (operator : Operator) (currentUser : UserProfile) :
    LoadMeResult × List Effect :=
  match sixRequestJoin client with
  | .error e => ({error := some e}, [])
  | .ok six =>
    let teamRecords := operator.handleTeam six.teams
    let teamMembershipRecords := operator.handleTeamMemberships six.teamMemberships
    let myTeams := deriveMyTeams six.teamUnreads six.teamMemberships
    let myTeamRecords := operator.handleMyTeam myTeams
    let systemRecords := operator.handleSystem
      [ { id := SYSTEM_CONFIG, value := six.config },
        { id := SYSTEM_LICENSE, value := six.license },
        { id := SYSTEM_CURRENT_USER_ID, value := currentUser.id } ]
    let userRecords := operator.handleUsersStaged [currentUser]
    let preferenceRecords := operator.handlePreferences six.preferences
    match loadMeRoleStep client operator currentUser six.teamMemberships with
    | (.error e, effects) => ({error := some e}, effects)
    | (.ok rolesRecords, effects) =>
      match exceptSequence
          [teamRecords, teamMembershipRecords, myTeamRecords, systemRecords,
            preferenceRecords, .ok rolesRecords, userRecords] with
      | .error e => ({error := some e}, effects)
      | .ok models =>
        let flattenedModels := models.flatten
        if flattenedModels.length > 0 then
          ({currentUser := some currentUser, error := none},
            effects ++ [.batchCommit flattenedModels])
        else
          ({currentUser := some currentUser, error := none}, effects)

/-- `loadMe(serverUrl, {deviceToken, user})`. -/
def loadMe (env : Env) (serverUrl : String) (args : LoadMeArgs) :
    LoadMeResult × List Effect :=
  match env.serverDatabases serverUrl with
  | none => ({error := some (serverUrl ++ " database not found")}, [])
  | some sdb =>
    match env.getClient serverUrl with
    | none => ({error := some (clientNotFoundError serverUrl)}, [])
    | some client =>
      let attach : Except Err Unit :=
        match args.deviceToken with
        | some deviceToken => client.attachDevice deviceToken
        | none => .ok ()
      match attach with
      | .error e => ({error := some e}, [.forceLogoutCheck serverUrl e])
      | .ok _ =>
        let fetched : Except Err UserProfile :=
          match args.user with
          | some u => .ok u
          | none => client.getMe
        match fetched with
        | .error e => ({error := some e}, [.forceLogoutCheck serverUrl e])
        | .ok currentUser => loadMeMain client sdb.operator currentUser

/-- `updateMe(serverUrl, user)`: patch the raw user row remotely, then
immediately upsert the returned profile and trigger `fetchRolesIfNeeded`
for its role tokens (the `if (updatedRoles.length)` guard from the source). -/
def updateMe (env : Env) (serverUrl : String) (user : UserModel) :
    UpdateMeResult × List Effect :=
  match env.serverDatabases serverUrl with
  | none => ({error := some (serverUrl ++ " database not found")}, [])
  | some _sdb =>
    match env.getClient serverUrl with
    | none => ({error := some (clientNotFoundError serverUrl)}, [])
    | some client =>
      match client.patchMe user.raw with
      | .error e => ({error := some e}, [.logError e])
      | .ok data =>
        let updatedRoles := data.roles.splitOn " "
        let roleEffects :=
          if updatedRoles.length ≠ 0 then [Effect.fetchRolesIfNeeded serverUrl updatedRoles]
          else []
        ({data := some data}, [Effect.handleUsersWrite [data]] ++ roleEffects)

/-- The parent `Channel` entity (only its existence matters here). -/
structure Channel
deriving DecidableEq, Repr

/-- The `ChannelInfo` entity of the schema layer. -/
structure ChannelInfo where
  channelId : String
  guestCount : Nat
  header : String
  memberCount : Nat
  pinPostCount : Nat
  purpose : String
  channel : Channel
deriving DecidableEq, Repr

/-- The `ChannelInfo` constructor: field assignments performed by
`constructor()` before any payload is applied. -/
def ChannelInfo.construct : ChannelInfo :=
  { channelId := ""
    guestCount := 0
    header := ""
    memberCount := 0
    pinPostCount := 0
    purpose := ""
    channel := {} }

/-- The My-Team payloads among a flattened batch of prepared records. -/
def myTeamRecordsOf (models : List DBModel) : List MyTeam :=
  models.filterMap fun m =>
    match m with
    | .myTeam t => some t
    | _ => none

/-! Concrete fixtures used by witnesses and counterexamples. -/

def u1 : UserProfile := { id := "u1", roles := "system_user" }

/-- A client whose every remote call succeeds with a minimal payload. -/
def okClient : Client where
  getMe := .ok u1
  getProfilesInChannel := fun _ => .ok []
  attachDevice := fun _ => .ok ()
  getMyTeams := .ok []
  getMyTeamMembers := .ok []
  getMyTeamUnreads := .ok []
  getMyPreferences := .ok []
  getClientConfigOld := .ok "{}"
  getClientLicenseOld := .ok "{}"
  getRolesByNames := fun _ => .ok []
  patchMe := fun _ => .ok u1

/-- Registry with the given client and a non-throwing operator, for every
server identifier. -/
def envOf (c : Client) : Env where
  getClient := fun _ => some c
  serverDatabases := fun _ => some { operator := okOperator }

def envOk : Env := envOf okClient

/-- Client registered, database absent. -/
def envNoDb : Env where
  getClient := fun _ => some okClient
  serverDatabases := fun _ => none

/-- Nothing registered for any server. -/
def envNoClient : Env where
  getClient := fun _ => none
  serverDatabases := fun _ => none

def exProfile : UserProfile := { id := "ex", roles := "" }

def keepProfile : UserProfile := { id := "keep", roles := "" }

/-- Channel membership containing both the to-be-excluded caller and another
member. -/
def channelExClient : Client :=
  { okClient with getProfilesInChannel := fun _ => .ok [exProfile, keepProfile] }

def envChannelEx : Env := envOf channelExClient

/-- Per-channel fan-out fixture: channel "bad" rejects, others succeed. -/
def perChannelClient : Client :=
  { okClient with
    getProfilesInChannel := fun channelId =>
      if channelId = "bad" then .error "boom" else .ok [keepProfile, exProfile] }

def envPerChannel : Env := envOf perChannelClient

/-- The spec's example failure: the config fetch of the six-request join
rejects. -/
def configFailClient : Client :=
  { okClient with getClientConfigOld := .error "config fetch failed" }

def envConfigFail : Env := envOf configFailClient

/-- Team fixture: one unread entry with a matching membership, one without. -/
def teamsClient : Client :=
  { okClient with
    getMyTeams := .ok [{ id := "t1" }]
    getMyTeamMembers := .ok [{ team_id := "t1", roles := "team_user" }]
    getMyTeamUnreads := .ok
      [{ team_id := "t1", msg_count := 3, mention_count := 2 },
        { team_id := "t2", msg_count := 0, mention_count := 0 }] }

def envTeams : Env := envOf teamsClient

/-- A local user whose pre-update role string equals the one `patchMe`
returns. -/
def patchedUser : UserModel := { raw := { id := "u1" }, roles := "system_user" }

/-! ### Helper lemmas -/

theorem splitOnAux_ne_nil (s sep : String) (b i j : String.Pos) (r : List String) :
    String.splitOnAux s sep b i j r ≠ [] := by
  induction b, i, j, r using String.splitOnAux.induct s sep with
  | _ => rw [String.splitOnAux]; simp_all

/-- `String.split` in JS and `String.splitOn` in this embedding never return
an empty token list (the split of `""` is `[""]`). -/
theorem splitOn_ne_nil (s sep : String) : s.splitOn sep ≠ [] := by
  unfold String.splitOn
  split
  · simp
  · exact splitOnAux_ne_nil s sep 0 0 0 []

theorem mem_jsSetInsert [DecidableEq α] (acc : List α) (x a : α) :
    a ∈ jsSetInsert acc x ↔ a ∈ acc ∨ a = x := by
  unfold jsSetInsert
  by_cases h : x ∈ acc
  · rw [if_pos h]
    constructor
    · exact Or.inl
    · rintro (ha | rfl)
      · exact ha
      · exact h
  · rw [if_neg h]
    simp

theorem nodup_jsSetInsert [DecidableEq α] (acc : List α) (x : α) (h : acc.Nodup) :
    (jsSetInsert acc x).Nodup := by
  unfold jsSetInsert
  by_cases hx : x ∈ acc
  · rwa [if_pos hx]
  · rw [if_neg hx, List.nodup_append]
    refine ⟨h, List.nodup_singleton x, ?_⟩
    intro a ha hax
    exact hx ((List.mem_singleton.mp hax) ▸ ha)

theorem mem_foldl_jsSetInsert [DecidableEq α] (l : List α) :
    ∀ acc (a : α), a ∈ l.foldl jsSetInsert acc ↔ a ∈ acc ∨ a ∈ l := by
  induction l with
  | nil => simp
  | cons x xs ih =>
    intro acc a
    rw [List.foldl_cons, ih, mem_jsSetInsert]
    simp [or_assoc]

theorem nodup_foldl_jsSetInsert [DecidableEq α] (l : List α) :
    ∀ acc : List α, acc.Nodup → (l.foldl jsSetInsert acc).Nodup := by
  induction l with
  | nil => exact fun _ h => h
  | cons x xs ih => exact fun acc h => ih _ (nodup_jsSetInsert acc x h)

theorem mem_jsSetDedup [DecidableEq α] (l : List α) (a : α) :
    a ∈ jsSetDedup l ↔ a ∈ l := by
  unfold jsSetDedup
  rw [mem_foldl_jsSetInsert]
  simp

theorem nodup_jsSetDedup [DecidableEq α] (l : List α) : (jsSetDedup l).Nodup :=
  nodup_foldl_jsSetInsert l [] List.nodup_nil

theorem mem_addChannelUsers (acc : List UserProfile) (item : ProfilesInChannelRequest)
    (u : UserProfile) :
    u ∈ addChannelUsers acc item ↔ u ∈ acc ∨ ∃ us, item.users = some us ∧ u ∈ us := by
  unfold addChannelUsers
  cases hus : item.users with
  | none => simp
  | some us =>
    dsimp only
    by_cases hlen : us.length ≠ 0
    · rw [if_pos hlen, mem_foldl_jsSetInsert]
      simp
    · rw [if_neg hlen]
      push_neg at hlen
      simp [List.length_eq_zero.mp hlen]

theorem nodup_addChannelUsers (acc : List UserProfile) (item : ProfilesInChannelRequest)
    (h : acc.Nodup) : (addChannelUsers acc item).Nodup := by
  unfold addChannelUsers
  cases item.users with
  | none => exact h
  | some us =>
    dsimp only
    by_cases hlen : us.length ≠ 0
    · rw [if_pos hlen]
      exact nodup_foldl_jsSetInsert us acc h
    · rwa [if_neg hlen]

theorem mem_foldl_addChannelUsers (data : List ProfilesInChannelRequest) :
    ∀ acc (u : UserProfile), u ∈ data.foldl addChannelUsers acc ↔
      u ∈ acc ∨ ∃ item ∈ data, ∃ us, item.users = some us ∧ u ∈ us := by
  induction data with
  | nil => simp
  | cons item rest ih =>
    intro acc u
    rw [List.foldl_cons, ih, mem_addChannelUsers]
    simp [or_assoc]

theorem mem_collectChannelUsers (data : List ProfilesInChannelRequest) (u : UserProfile) :
    u ∈ collectChannelUsers data ↔
      ∃ item ∈ data, ∃ us, item.users = some us ∧ u ∈ us := by
  unfold collectChannelUsers
  rw [mem_foldl_addChannelUsers]
  simp

theorem nodup_collectChannelUsers (data : List ProfilesInChannelRequest) :
    (collectChannelUsers data).Nodup := by
  unfold collectChannelUsers
  suffices h : ∀ acc : List UserProfile, acc.Nodup → (data.foldl addChannelUsers acc).Nodup from
    h [] List.nodup_nil
  induction data with
  | nil => exact fun _ h => h
  | cons item rest ih => exact fun acc h => ih _ (nodup_addChannelUsers acc item h)

theorem prepareUsers_ok_eq (o : Operator) (l : List UserProfile) (ms : List DBModel)
    (h : prepareUsers o l = some (Except.ok ms)) : ms = l.map DBModel.user := by
  unfold prepareUsers at h
  split at h
  · simp at h
  · unfold Operator.handleUsersStaged stageOutcome at h
    cases ho : o.userErr with
    | some e => rw [ho] at h; simp at h
    | none =>
      rw [ho] at h
      simp only [Option.some.injEq, Except.ok.injEq] at h
      exact h.symm

/-- Every effect of a fetch-only `fetchProfilesInChannel` call is a
forced-logout check. -/
theorem fetchOnly_inChannel_effects (env : Env) (serverUrl channelId : String)
    (excludeUserId : Option String) :
    ∀ eff ∈ (fetchProfilesInChannel env serverUrl channelId excludeUserId true).2,
      ∃ e, eff = Effect.forceLogoutCheck serverUrl e := by
  unfold fetchProfilesInChannel
  cases hc : env.getClient serverUrl with
  | none => simp
  | some client =>
    cases hp : client.getProfilesInChannel channelId with
    | error e => simp [hp]
    | ok users => simp [hp]

/-! ### Claim theorems -/

/-- C10: every newly constructed ChannelInfo record has `channelId`, `header`
and `purpose` equal to the empty string and `guestCount`, `memberCount` and
`pinPostCount` equal to 0 before any field is assigned from a payload. -/
theorem channelInfo_constructor_defaults :
    ChannelInfo.construct.channelId = "" ∧ ChannelInfo.construct.header = "" ∧
    ChannelInfo.construct.purpose = "" ∧ ChannelInfo.construct.guestCount = 0 ∧
    ChannelInfo.construct.memberCount = 0 ∧ ChannelInfo.construct.pinPostCount = 0 :=
  ⟨rfl, rfl, rfl, rfl, rfl, rfl⟩

/-- C9: when the remote `getMe` succeeds but no database/operator is
registered for the server, `fetchMe(serverUrl, fetchOnly=false)` still returns
`{user}` with no error, and performs no persistence operation at all (its
effect trace is empty). -/
theorem fetchMe_no_database_skips_persistence (env : Env) (serverUrl : String)
    (client : Client) (u : UserProfile)
    (hc : env.getClient serverUrl = some client)
    (hme : client.getMe = .ok u)
    (hdb : env.serverDatabases serverUrl = none) :
    fetchMe env serverUrl false = ({ user := some u, error := none }, []) := by
  simp [fetchMe, hc, hme, hdb]

/-- C9 witness: concrete registry with a client but no database. -/
theorem fetchMe_no_database_skips_persistence_witness :
    fetchMe envNoDb "serverA" false = ({ user := some u1, error := none }, []) :=
  fetchMe_no_database_skips_persistence envNoDb "serverA" okClient u1 rfl rfl rfl

/-- C3: with `fetchOnly = true`, `fetchMe`, `fetchProfilesInChannel` and
`fetchProfilesPerChannels` never invoke the operator's batch commit, and
`fetchMe` also performs no non-staged immediate write. -/
theorem fetchOnly_no_commit (env : Env) (serverUrl channelId : String)
    (channelIds : List String) (excludeUserId : Option String) :
    (∀ ms, Effect.batchCommit ms ∉ (fetchMe env serverUrl true).2) ∧
    (∀ us, Effect.handleUsersWrite us ∉ (fetchMe env serverUrl true).2) ∧
    (∀ ms, Effect.batchCommit ms ∉
      (fetchProfilesInChannel env serverUrl channelId excludeUserId true).2) ∧
    (∀ ms, Effect.batchCommit ms ∉
      (fetchProfilesPerChannels env serverUrl channelIds excludeUserId true).2) := by
  refine ⟨?_, ?_, ?_, ?_⟩
  · intro ms hms
    unfold fetchMe at hms
    cases hc : env.getClient serverUrl with
    | none => simp [hc] at hms
    | some client =>
      cases hme : client.getMe with
      | error e => simp [hc, hme] at hms
      | ok user => simp [hc, hme] at hms
  · intro us hus
    unfold fetchMe at hus
    cases hc : env.getClient serverUrl with
    | none => simp [hc] at hus
    | some client =>
      cases hme : client.getMe with
      | error e => simp [hc, hme] at hus
      | ok user => simp [hc, hme] at hus
  · intro ms hms
    have h := fetchOnly_inChannel_effects env serverUrl channelId excludeUserId _ hms
    obtain ⟨e, he⟩ := h
    exact Effect.noConfusion he
  · intro ms hms
    have heq : (fetchProfilesPerChannels env serverUrl channelIds excludeUserId true).2
        = ((channelIds.map fun id =>
            fetchProfilesInChannel env serverUrl id excludeUserId true).map Prod.snd).flatten
            ++ [] := rfl
    rw [heq, List.append_nil, List.mem_flatten] at hms
    obtain ⟨tr, htr, hmem⟩ := hms
    rw [List.mem_map] at htr
    obtain ⟨res, hres, rfl⟩ := htr
    rw [List.mem_map] at hres
    obtain ⟨id, _, rfl⟩ := hres
    obtain ⟨e, he⟩ := fetchOnly_inChannel_effects env serverUrl id excludeUserId _ hmem
    exact Effect.noConfusion he

/-- C3 witness: instantiation at a concrete registry and channel list. -/
theorem fetchOnly_no_commit_witness :
    Effect.batchCommit [] ∉ (fetchMe envOk "serverA" true).2 ∧
    Effect.handleUsersWrite [u1] ∉ (fetchMe envOk "serverA" true).2 ∧
    Effect.batchCommit [] ∉
      (fetchProfilesInChannel envOk "serverA" "c1" (some "ex") true).2 ∧
    Effect.batchCommit [] ∉
      (fetchProfilesPerChannels envOk "serverA" ["c1", "c2"] (some "ex") true).2 := by
  obtain ⟨h1, h2, h3, h4⟩ := fetchOnly_no_commit envOk "serverA" "c1" ["c1", "c2"] (some "ex")
  exact ⟨h1 [], h2 [u1], h3 [], h4 []⟩

/-- All users collected by the per-channel fan-out vanish when every entry
carries an error instead of users. -/
theorem collectChannelUsers_eq_nil (data : List ProfilesInChannelRequest)
    (h : ∀ item ∈ data, item.users = none) : collectChannelUsers data = [] := by
  rw [List.eq_nil_iff_forall_not_mem]
  intro u hu
  rw [mem_collectChannelUsers] at hu
  obtain ⟨item, hitem, us, hus, _⟩ := hu
  rw [h item hitem] at hus
  exact Option.noConfusion hus

theorem flatten_nil_of_all_nil (l : List (List Effect)) (h : ∀ x ∈ l, x = []) :
    l.flatten = [] := by
  induction l with
  | nil => rfl
  | cons x xs ih =>
    rw [List.flatten_cons, h x (List.mem_cons_self x xs), List.nil_append]
    exact ih fun y hy => h y (List.mem_cons_of_mem x hy)

/-- With no client registered, the per-channel fan-out returns one error entry
per channel, no overall error, and an empty effect trace. -/
theorem perChannels_no_client (env : Env) (serverUrl : String) (channelIds : List String)
    (excludeUserId : Option String) (fetchOnly : Bool)
    (hc : env.getClient serverUrl = none) :
    fetchProfilesPerChannels env serverUrl channelIds excludeUserId fetchOnly
      = ({ data := some (channelIds.map fun id =>
            { channelId := id, users := none,
              error := some (clientNotFoundError serverUrl) }), error := none }, []) := by
  have hin : ∀ id, fetchProfilesInChannel env serverUrl id excludeUserId true
      = ({ channelId := id, users := none,
           error := some (clientNotFoundError serverUrl) }, []) := by
    intro id
    unfold fetchProfilesInChannel
    rw [hc]
  have hflat : (List.map (fun _ : String => ([] : List Effect)) channelIds).flatten = [] := by
    apply flatten_nil_of_all_nil
    intro x hx
    rw [List.mem_map] at hx
    obtain ⟨_, _, rfl⟩ := hx
    rfl
  have hcollect : collectChannelUsers
      (channelIds.map fun id =>
        ({ channelId := id, users := none,
           error := some (clientNotFoundError serverUrl) } : ProfilesInChannelRequest))
      = [] := by
    apply collectChannelUsers_eq_nil
    intro item hitem
    rw [List.mem_map] at hitem
    obtain ⟨id, _, rfl⟩ := hitem
    rfl
  unfold fetchProfilesPerChannels
  simp only [hin, List.map_map, Function.comp_def]
  cases fetchOnly with
  | true => simp [hflat]
  | false =>
    cases hdb : env.serverDatabases serverUrl with
    | none => simp [hdb, hflat]
    | some sdb => simp [hdb, hflat, hcollect, prepareUsers]

/-- C8 counterexample: with a client registered but the server's database
absent, a successful `fetchMe` reports no error at all — the claimed
"resource-resolution failure implies error field set" fails for `fetchMe`. -/
theorem resource_failure_counterexample :
    envNoDb.serverDatabases "serverA" = none ∧
    (fetchMe envNoDb "serverA" false).1.error = none ∧
    (fetchMe envNoDb "serverA" false).1.user = some u1 :=
  ⟨rfl, rfl, rfl⟩

/-- C8 amended: a missing network client yields an error-set result from
`fetchMe`, `fetchProfilesInChannel`, `loadMe` and `updateMe`, and error-set
per-channel entries (overall error unset) from `fetchProfilesPerChannels`;
a missing database yields an error-set result from `loadMe` and `updateMe`
(the three fetch operations silently skip persistence instead); in every case
the failure is returned as a value, never thrown. -/
theorem resource_errors_returned (env : Env) (serverUrl channelId : String)
    (channelIds : List String) (excludeUserId : Option String) (fetchOnly : Bool)
    (args : LoadMeArgs) (um : UserModel) :
    (env.getClient serverUrl = none →
      (fetchMe env serverUrl fetchOnly).1.error.isSome ∧
      (fetchProfilesInChannel env serverUrl channelId excludeUserId fetchOnly).1.error.isSome ∧
      (loadMe env serverUrl args).1.error.isSome ∧
      (updateMe env serverUrl um).1.error.isSome ∧
      (∃ data,
        (fetchProfilesPerChannels env serverUrl channelIds excludeUserId fetchOnly).1.data
            = some data ∧
        ∀ entry ∈ data, entry.error.isSome)) ∧
    (env.serverDatabases serverUrl = none →
      (loadMe env serverUrl args).1.error.isSome ∧
      (updateMe env serverUrl um).1.error.isSome) := by
  constructor
  · intro hc
    refine ⟨?_, ?_, ?_, ?_, ?_⟩
    · unfold fetchMe
      rw [hc]
      simp
    · unfold fetchProfilesInChannel
      rw [hc]
      simp
    · unfold loadMe
      cases hdb : env.serverDatabases serverUrl with
      | none => simp
      | some sdb => rw [hc]; simp
    · unfold updateMe
      cases hdb : env.serverDatabases serverUrl with
      | none => simp
      | some sdb => rw [hc]; simp
    · rw [perChannels_no_client env serverUrl channelIds excludeUserId fetchOnly hc]
      refine ⟨_, rfl, ?_⟩
      intro entry hentry
      rw [List.mem_map] at hentry
      obtain ⟨id, _, rfl⟩ := hentry
      rfl
  · intro hdb
    constructor
    · unfold loadMe
      rw [hdb]
      simp
    · unfold updateMe
      rw [hdb]
      simp

/-- C8 witness: with nothing registered, the resource failures surface as
returned error values. -/
theorem resource_errors_returned_witness :
    (fetchMe envNoClient "serverA" false).1.error.isSome ∧
    (updateMe envNoClient "serverA" patchedUser).1.error.isSome := by
  have h := resource_errors_returned envNoClient "serverA" "c1" ["c1"] none false {} patchedUser
  exact ⟨(h.1 rfl).1, (h.2 rfl).2⟩

/-- C2 counterexample: the profile with the excluded identifier is present in
the returned users list — the exclusion only applies to the persisted set. -/
theorem fetchProfilesInChannel_returns_excluded :
    (fetchProfilesInChannel envChannelEx "serverA" "c1" (some "ex") false).1.users
      = some [exProfile, keepProfile] ∧ exProfile.id = "ex" :=
  ⟨rfl, rfl⟩

/-- C2 amended: the users list returned by `fetchProfilesInChannel` is the
deduplicated fetched list without exclusion; `excludeUserId` is excluded from
the persisted set: no committed upsert batch contains a record whose user id
equals `excludeUserId`. -/
theorem fetchProfilesInChannel_commit_excludes (env : Env) (serverUrl channelId : String)
    (ex : String) (fetchOnly : Bool) (ms : List DBModel)
    (hms : Effect.batchCommit ms ∈
      (fetchProfilesInChannel env serverUrl channelId (some ex) fetchOnly).2) :
    ∀ u, DBModel.user u ∈ ms → u.id ≠ ex := by
  unfold fetchProfilesInChannel at hms
  cases hc : env.getClient serverUrl with
  | none => simp [hc] at hms
  | some client =>
    cases hp : client.getProfilesInChannel channelId with
    | error e => simp [hc, hp] at hms
    | ok users =>
      simp only [hc, hp] at hms
      cases fetchOnly with
      | true => simp at hms
      | false =>
        cases hdb : env.serverDatabases serverUrl with
        | none => simp [hdb] at hms
        | some sdb =>
          simp only [hdb] at hms
          simp at hms
          intro u hu
          cases hpre : prepareUsers sdb.operator
              (List.filter (fun u => !decide (u.id = ex)) (jsSetDedup users)) with
          | none => rw [hpre] at hms; simp at hms
          | some r =>
            cases r with
            | error e => rw [hpre] at hms; simp at hms
            | ok models =>
              rw [hpre] at hms
              simp at hms
              by_cases hnil : models = []
              · rw [if_pos hnil] at hms
                simp at hms
              · rw [if_neg hnil] at hms
                simp only [List.mem_singleton, Effect.batchCommit.injEq] at hms
                subst hms
                have hmodels := prepareUsers_ok_eq _ _ _ hpre
                rw [hmodels] at hu
                rw [List.mem_map] at hu
                obtain ⟨v, hv, hvu⟩ := hu
                obtain rfl : v = u := by
                  simpa using hvu
                have := List.of_mem_filter hv
                simpa using this

/-- C2 amended witness: at the concrete fixture a commit happens, and the
theorem applied to its only record shows it is not the excluded caller. -/
theorem fetchProfilesInChannel_commit_excludes_witness :
    Effect.batchCommit [DBModel.user keepProfile]
      ∈ (fetchProfilesInChannel envChannelEx "serverA" "c1" (some "ex") false).2 ∧
    keepProfile.id ≠ "ex" :=
  ⟨by decide,
    fetchProfilesInChannel_commit_excludes envChannelEx "serverA" "c1" "ex" false
      [DBModel.user keepProfile] (by decide) keepProfile (by decide)⟩

/-- C7 counterexample: `patchMe` returns the same role string the user already
had, yet the role-refresh side effect `fetchRolesIfNeeded` is still
triggered — the source only guards on `updatedRoles.length`, which is never
zero. -/
theorem updateMe_refresh_on_unchanged_roles :
    patchedUser.roles = "system_user" ∧
    okClient.patchMe patchedUser.raw = Except.ok u1 ∧
    u1.roles = "system_user" ∧
    ∃ tokens, Effect.fetchRolesIfNeeded "serverA" tokens
      ∈ (updateMe envOk "serverA" patchedUser).2 := by
  refine ⟨rfl, rfl, rfl, "system_user".splitOn " ", ?_⟩
  have hne : ("system_user".splitOn " ").length ≠ 0 := by
    intro h
    exact splitOn_ne_nil "system_user" " " (List.length_eq_zero.mp h)
  show Effect.fetchRolesIfNeeded "serverA" ("system_user".splitOn " ")
    ∈ [Effect.handleUsersWrite [u1]] ++
      (if ("system_user".splitOn " ").length ≠ 0 then
        [Effect.fetchRolesIfNeeded "serverA" ("system_user".splitOn " ")]
      else [])
  rw [if_pos hne]
  simp

/-- C7 amended: on every successful `updateMe`, the role-refresh side effect
`fetchRolesIfNeeded` is triggered with the returned role string's tokens,
whether or not that string changed (its token list is never empty). -/
theorem updateMe_always_triggers_role_refresh (env : Env) (serverUrl : String)
    (um : UserModel) (client : Client) (sdb : ServerDatabase) (data : UserProfile)
    (hdb : env.serverDatabases serverUrl = some sdb)
    (hc : env.getClient serverUrl = some client)
    (hp : client.patchMe um.raw = .ok data) :
    (updateMe env serverUrl um).1.data = some data ∧
    Effect.fetchRolesIfNeeded serverUrl (data.roles.splitOn " ")
      ∈ (updateMe env serverUrl um).2 := by
  unfold updateMe
  simp only [hdb, hc, hp]
  have hne : (data.roles.splitOn " ").length ≠ 0 := by
    intro h
    exact splitOn_ne_nil data.roles " " (List.length_eq_zero.mp h)
  rw [if_pos hne]
  simp

/-- C7 amended witness: role refresh triggered at the concrete fixture. -/
theorem updateMe_always_triggers_role_refresh_witness :
    (updateMe envOk "serverA" patchedUser).1.data = some u1 ∧
    Effect.fetchRolesIfNeeded "serverA" ("system_user".splitOn " ")
      ∈ (updateMe envOk "serverA" patchedUser).2 :=
  updateMe_always_triggers_role_refresh envOk "serverA" patchedUser okClient
    { operator := okOperator } u1 rfl rfl rfl

/-- Under resolved resources and a successful pre-fetch phase, `loadMe` is
exactly its post-authentication phase. -/
theorem loadMe_reduces (env : Env) (serverUrl : String) (args : LoadMeArgs)
    (sdb : ServerDatabase) (client : Client) (currentUser : UserProfile)
    (hdb : env.serverDatabases serverUrl = some sdb)
    (hc : env.getClient serverUrl = some client)
    (hattach : (match args.deviceToken with
      | some deviceToken => client.attachDevice deviceToken
      | none => Except.ok ()) = Except.ok ())
    (huser : (match args.user with
      | some u => Except.ok u
      | none => client.getMe) = Except.ok currentUser) :
    loadMe env serverUrl args = loadMeMain client sdb.operator currentUser := by
  unfold loadMe
  simp only [hdb, hc, hattach, huser]

/-- The role-resolution step only ever emits the remote role-fetch call. -/
theorem loadMeRoleStep_effects (client : Client) (operator : Operator)
    (currentUser : UserProfile) (teamMemberships : List TeamMembership) :
    ∀ eff ∈ (loadMeRoleStep client operator currentUser teamMemberships).2,
      eff = Effect.roleFetchCall (loadMeRolesToLoad currentUser teamMemberships) := by
  unfold loadMeRoleStep
  dsimp only
  by_cases h : (loadMeRolesToLoad currentUser teamMemberships).length > 0
  · rw [if_pos h]
    cases hr : client.getRolesByNames (loadMeRolesToLoad currentUser teamMemberships) with
    | error e => simp [hr]
    | ok rolesByName =>
      simp only [hr]
      split
      · simp
      · simp
  · rw [if_neg h]
    simp

/-- The post-authentication phase either succeeds with the current user and a
clear error field, or fails with no current user and no batch commit ever
invoked. -/
theorem loadMeMain_shape (client : Client) (operator : Operator)
    (currentUser : UserProfile) :
    ((loadMeMain client operator currentUser).1.error = none ∧
      (loadMeMain client operator currentUser).1.currentUser = some currentUser) ∨
    ((loadMeMain client operator currentUser).1.currentUser = none ∧
      ∀ ms, Effect.batchCommit ms ∉ (loadMeMain client operator currentUser).2) := by
  unfold loadMeMain
  cases hsix : sixRequestJoin client with
  | error e => simp [hsix]
  | ok six =>
    simp only [hsix]
    cases hrs : loadMeRoleStep client operator currentUser six.teamMemberships with
    | mk rsf effects =>
      cases rsf with
      | error e =>
        simp only [hrs]
        right
        refine ⟨trivial, ?_⟩
        intro ms hms
        have h2 := loadMeRoleStep_effects client operator currentUser six.teamMemberships
          (Effect.batchCommit ms) (by rw [hrs]; exact hms)
        exact Effect.noConfusion h2
      | ok rolesRecords =>
        simp only [hrs]
        cases hseq : exceptSequence [operator.handleTeam six.teams,
            operator.handleTeamMemberships six.teamMemberships,
            operator.handleMyTeam (deriveMyTeams six.teamUnreads six.teamMemberships),
            operator.handleSystem [{ id := SYSTEM_CONFIG, value := six.config },
              { id := SYSTEM_LICENSE, value := six.license },
              { id := SYSTEM_CURRENT_USER_ID, value := currentUser.id }],
            operator.handlePreferences six.preferences, Except.ok rolesRecords,
            operator.handleUsersStaged [currentUser]] with
        | error e =>
          simp only [hseq]
          right
          refine ⟨trivial, ?_⟩
          intro ms hms
          have h2 := loadMeRoleStep_effects client operator currentUser six.teamMemberships
            (Effect.batchCommit ms) (by rw [hrs]; exact hms)
          exact Effect.noConfusion h2
        | ok models =>
          simp only [hseq]
          by_cases hlen : models.flatten.length > 0
          · rw [if_pos hlen]
            left
            exact ⟨rfl, rfl⟩
          · rw [if_neg hlen]
            left
            exact ⟨rfl, rfl⟩

/-- C1: in every execution of `loadMe` whose post-authentication phase throws
(six-request join, record preparation, or role fetching) before the single
batch commit, the result carries an error with `currentUser` undefined, and
the operator batch commit is never invoked — no partial commit occurs. -/
theorem loadMe_exception_no_partial_commit (env : Env) (serverUrl : String)
    (args : LoadMeArgs) (sdb : ServerDatabase) (client : Client) (currentUser : UserProfile)
    (hdb : env.serverDatabases serverUrl = some sdb)
    (hc : env.getClient serverUrl = some client)
    (hattach : (match args.deviceToken with
      | some deviceToken => client.attachDevice deviceToken
      | none => Except.ok ()) = Except.ok ())
    (huser : (match args.user with
      | some u => Except.ok u
      | none => client.getMe) = Except.ok currentUser)
    (herr : (loadMe env serverUrl args).1.error.isSome) :
    (loadMe env serverUrl args).1.currentUser = none ∧
    ∀ ms, Effect.batchCommit ms ∉ (loadMe env serverUrl args).2 := by
  rw [loadMe_reduces env serverUrl args sdb client currentUser hdb hc hattach huser]
    at herr ⊢
  rcases loadMeMain_shape client sdb.operator currentUser with h | h
  · rw [h.1] at herr
    exact absurd herr (by simp)
  · exact h

/-- C1 witness: the spec's example — the config fetch of the six-request join
rejects; the result is an error with no current user and no commit. -/
theorem loadMe_exception_no_partial_commit_witness :
    (loadMe envConfigFail "serverA" {}).1.currentUser = none ∧
    ∀ ms, Effect.batchCommit ms ∉ (loadMe envConfigFail "serverA" {}).2 :=
  loadMe_exception_no_partial_commit envConfigFail "serverA" {}
    { operator := okOperator } configFailClient u1 rfl rfl rfl rfl rfl

theorem myTeamRecordsOf_nil : myTeamRecordsOf [] = [] := rfl

theorem myTeamRecordsOf_append (a b : List DBModel) :
    myTeamRecordsOf (a ++ b) = myTeamRecordsOf a ++ myTeamRecordsOf b := by
  unfold myTeamRecordsOf
  rw [List.filterMap_append]

theorem myTeamRecordsOf_eq_nil (l : List DBModel)
    (h : ∀ x ∈ l, ∀ t, x ≠ DBModel.myTeam t) : myTeamRecordsOf l = [] := by
  induction l with
  | nil => rfl
  | cons x xs ih =>
    have hx := h x (List.mem_cons_self x xs)
    have hrest : myTeamRecordsOf (x :: xs) = myTeamRecordsOf xs := by
      cases x with
      | myTeam t => exact absurd rfl (hx t)
      | team t => rfl
      | teamMembership m => rfl
      | system s => rfl
      | user u => rfl
      | preference p => rfl
      | role r => rfl
    rw [hrest]
    exact ih fun y hy => h y (List.mem_cons_of_mem x hy)

theorem myTeamRecordsOf_map_myTeam (l : List MyTeam) :
    myTeamRecordsOf (l.map DBModel.myTeam) = l := by
  induction l with
  | nil => rfl
  | cons x xs ih =>
    rw [List.map_cons]
    have hstep : myTeamRecordsOf (DBModel.myTeam x :: xs.map DBModel.myTeam)
        = x :: myTeamRecordsOf (xs.map DBModel.myTeam) := rfl
    rw [hstep, ih]

/-- The My-Team derivation is a left join: one record per unread entry, with
the unread entry team id and the matching membership roles (or ""). -/
theorem deriveMyTeams_join (teamUnreads : List TeamUnread)
    (teamMemberships : List TeamMembership) :
    List.Forall₂ (fun rec unread =>
        rec.id = unread.team_id ∧
        ((∃ m ∈ teamMemberships, m.team_id = unread.team_id ∧ rec.roles = m.roles) ∨
          ((∀ m ∈ teamMemberships, m.team_id ≠ unread.team_id) ∧ rec.roles = "")))
      (deriveMyTeams teamUnreads teamMemberships) teamUnreads := by
  unfold deriveMyTeams
  induction teamUnreads with
  | nil => exact List.Forall₂.nil
  | cons u us ih =>
    rw [List.map_cons]
    refine List.Forall₂.cons ?_ ih
    constructor
    · rfl
    · cases hf : teamMemberships.find? fun team => team.team_id == u.team_id with
      | none =>
        right
        constructor
        · intro m hm
          have h2 := List.find?_eq_none.mp hf m hm
          simpa using h2
        · rfl
      | some m =>
        left
        refine ⟨m, List.mem_of_find?_eq_some hf, ?_, rfl⟩
        have h2 := List.find?_some hf
        simpa using h2

/-- With a non-throwing operator, a successful six-request join and a
successful role fetch, the post-authentication phase of `loadMe` succeeds and
performs exactly one batch commit covering all staged records. -/
theorem loadMeMain_success (client : Client) (currentUser : UserProfile)
    (six : SixRequestData) (rolesByName : List Role)
    (hsix : sixRequestJoin client = .ok six)
    (hroles : client.getRolesByNames (loadMeRolesToLoad currentUser six.teamMemberships)
      = .ok rolesByName) :
    ∃ rolesRecords effects,
      loadMeMain client okOperator currentUser
        = ({ currentUser := some currentUser, error := none },
            effects ++ [Effect.batchCommit
              ([six.teams.map DBModel.team,
                six.teamMemberships.map DBModel.teamMembership,
                (deriveMyTeams six.teamUnreads six.teamMemberships).map DBModel.myTeam,
                ([{ id := SYSTEM_CONFIG, value := six.config },
                  { id := SYSTEM_LICENSE, value := six.license },
                  { id := SYSTEM_CURRENT_USER_ID, value := currentUser.id }]
                  : List SystemRecord).map DBModel.system,
                six.preferences.map DBModel.preference,
                rolesRecords,
                [DBModel.user currentUser]].flatten)]) ∧
      (∀ r ∈ rolesRecords, ∃ role, r = DBModel.role role) ∧
      (∀ eff ∈ effects,
        eff = Effect.roleFetchCall (loadMeRolesToLoad currentUser six.teamMemberships)) ∧
      (loadMeRolesToLoad currentUser six.teamMemberships = [] → effects = []) := by
  have hstep : ∃ rolesRecords effects,
      loadMeRoleStep client okOperator currentUser six.teamMemberships
        = (.ok rolesRecords, effects) ∧
      (∀ r ∈ rolesRecords, ∃ role, r = DBModel.role role) ∧
      (∀ eff ∈ effects,
        eff = Effect.roleFetchCall (loadMeRolesToLoad currentUser six.teamMemberships)) ∧
      (loadMeRolesToLoad currentUser six.teamMemberships = [] → effects = []) := by
    unfold loadMeRoleStep
    dsimp only
    by_cases h : (loadMeRolesToLoad currentUser six.teamMemberships).length > 0
    · rw [if_pos h, hroles]
      dsimp only
      by_cases hnil : rolesByName.length ≠ 0
      · rw [if_pos hnil]
        refine ⟨rolesByName.map DBModel.role, _, rfl, ?_, by simp, ?_⟩
        · intro r hr
          rw [List.mem_map] at hr
          obtain ⟨role, _, rfl⟩ := hr
          exact ⟨role, rfl⟩
        · intro he
          rw [he] at h
          simp at h
      · rw [if_neg hnil]
        refine ⟨[], _, rfl, by simp, by simp, ?_⟩
        intro he
        rw [he] at h
        simp at h
    · rw [if_neg h]
      exact ⟨[], [], rfl, by simp, by simp, fun _ => rfl⟩
  obtain ⟨rolesRecords, effects, hrs, hroleShape, heffShape, hempty⟩ := hstep
  refine ⟨rolesRecords, effects, ?_, hroleShape, heffShape, hempty⟩
  unfold loadMeMain
  simp only [hsix, hrs]
  have hseq : exceptSequence [okOperator.handleTeam six.teams,
      okOperator.handleTeamMemberships six.teamMemberships,
      okOperator.handleMyTeam (deriveMyTeams six.teamUnreads six.teamMemberships),
      okOperator.handleSystem [{ id := SYSTEM_CONFIG, value := six.config },
        { id := SYSTEM_LICENSE, value := six.license },
        { id := SYSTEM_CURRENT_USER_ID, value := currentUser.id }],
      okOperator.handlePreferences six.preferences, Except.ok rolesRecords,
      okOperator.handleUsersStaged [currentUser]]
      = Except.ok [six.teams.map DBModel.team,
        six.teamMemberships.map DBModel.teamMembership,
        (deriveMyTeams six.teamUnreads six.teamMemberships).map DBModel.myTeam,
        ([{ id := SYSTEM_CONFIG, value := six.config },
          { id := SYSTEM_LICENSE, value := six.license },
          { id := SYSTEM_CURRENT_USER_ID, value := currentUser.id }]
          : List SystemRecord).map DBModel.system,
        six.preferences.map DBModel.preference, rolesRecords,
        [DBModel.user currentUser]] := rfl
  simp only [hseq]
  have hlen : ([six.teams.map DBModel.team,
      six.teamMemberships.map DBModel.teamMembership,
      (deriveMyTeams six.teamUnreads six.teamMemberships).map DBModel.myTeam,
      ([{ id := SYSTEM_CONFIG, value := six.config },
        { id := SYSTEM_LICENSE, value := six.license },
        { id := SYSTEM_CURRENT_USER_ID, value := currentUser.id }]
        : List SystemRecord).map DBModel.system,
      six.preferences.map DBModel.preference, rolesRecords,
      [DBModel.user currentUser]] : List (List DBModel)).flatten.length > 0 := by
    simp
  rw [if_pos hlen]

/-- C5: in every successful execution of `loadMe`, the committed My-Team
records form a left join of the team-unread entries with the team memberships
on team id: exactly one record per unread entry, carrying the unread entry's
team id and the matching membership's role string (or "" when unmatched). -/
theorem loadMe_myteam_left_join (env : Env) (serverUrl : String) (args : LoadMeArgs)
    (client : Client) (currentUser : UserProfile)
    (teams : List Team) (teamMemberships : List TeamMembership)
    (teamUnreads : List TeamUnread) (preferences : List Preference)
    (config license : String) (rolesByName : List Role)
    (hdb : env.serverDatabases serverUrl = some { operator := okOperator })
    (hc : env.getClient serverUrl = some client)
    (hattach : (match args.deviceToken with
      | some deviceToken => client.attachDevice deviceToken
      | none => Except.ok ()) = Except.ok ())
    (huser : (match args.user with
      | some u => Except.ok u
      | none => client.getMe) = Except.ok currentUser)
    (hteams : client.getMyTeams = .ok teams)
    (htm : client.getMyTeamMembers = .ok teamMemberships)
    (htu : client.getMyTeamUnreads = .ok teamUnreads)
    (hpref : client.getMyPreferences = .ok preferences)
    (hcfg : client.getClientConfigOld = .ok config)
    (hlic : client.getClientLicenseOld = .ok license)
    (hroles : client.getRolesByNames (loadMeRolesToLoad currentUser teamMemberships)
      = .ok rolesByName) :
    (loadMe env serverUrl args).1
      = { currentUser := some currentUser, error := none } ∧
    ∃ ms, Effect.batchCommit ms ∈ (loadMe env serverUrl args).2 ∧
      myTeamRecordsOf ms = deriveMyTeams teamUnreads teamMemberships ∧
      List.Forall₂ (fun rec unread =>
          rec.id = unread.team_id ∧
          ((∃ m ∈ teamMemberships, m.team_id = unread.team_id ∧ rec.roles = m.roles) ∨
            ((∀ m ∈ teamMemberships, m.team_id ≠ unread.team_id) ∧ rec.roles = "")))
        (myTeamRecordsOf ms) teamUnreads := by
  have hsix : sixRequestJoin client
      = .ok { teams := teams, teamMemberships := teamMemberships,
              teamUnreads := teamUnreads, preferences := preferences,
              config := config, license := license } := by
    unfold sixRequestJoin
    rw [hteams, htm, htu, hpref, hcfg, hlic]
    rfl
  have hmain : loadMe env serverUrl args = loadMeMain client okOperator currentUser :=
    loadMe_reduces env serverUrl args { operator := okOperator } client currentUser
      hdb hc hattach huser
  obtain ⟨rolesRecords, effects, heq, hroleShape, -, -⟩ :=
    loadMeMain_success client currentUser _ rolesByName hsix hroles
  rw [hmain, heq]
  dsimp only
  have hmt : myTeamRecordsOf ([teams.map DBModel.team,
      teamMemberships.map DBModel.teamMembership,
      (deriveMyTeams teamUnreads teamMemberships).map DBModel.myTeam,
      ([{ id := SYSTEM_CONFIG, value := config },
        { id := SYSTEM_LICENSE, value := license },
        { id := SYSTEM_CURRENT_USER_ID, value := currentUser.id }]
        : List SystemRecord).map DBModel.system,
      preferences.map DBModel.preference, rolesRecords,
      [DBModel.user currentUser]] : List (List DBModel)).flatten
      = deriveMyTeams teamUnreads teamMemberships := by
    have ht : myTeamRecordsOf (teams.map DBModel.team) = [] := by
      apply myTeamRecordsOf_eq_nil
      intro x hx t hxt
      rw [List.mem_map] at hx
      obtain ⟨a, -, rfl⟩ := hx
      exact DBModel.noConfusion hxt
    have htm2 : myTeamRecordsOf (teamMemberships.map DBModel.teamMembership) = [] := by
      apply myTeamRecordsOf_eq_nil
      intro x hx t hxt
      rw [List.mem_map] at hx
      obtain ⟨a, -, rfl⟩ := hx
      exact DBModel.noConfusion hxt
    have hsys : myTeamRecordsOf (([{ id := SYSTEM_CONFIG, value := config },
        { id := SYSTEM_LICENSE, value := license },
        { id := SYSTEM_CURRENT_USER_ID, value := currentUser.id }]
        : List SystemRecord).map DBModel.system) = [] := by
      apply myTeamRecordsOf_eq_nil
      intro x hx t hxt
      rw [List.mem_map] at hx
      obtain ⟨a, -, rfl⟩ := hx
      exact DBModel.noConfusion hxt
    have hpref2 : myTeamRecordsOf (preferences.map DBModel.preference) = [] := by
      apply myTeamRecordsOf_eq_nil
      intro x hx t hxt
      rw [List.mem_map] at hx
      obtain ⟨a, -, rfl⟩ := hx
      exact DBModel.noConfusion hxt
    have hroles2 : myTeamRecordsOf rolesRecords = [] := by
      apply myTeamRecordsOf_eq_nil
      intro x hx t hxt
      obtain ⟨role, rfl⟩ := hroleShape x hx
      exact DBModel.noConfusion hxt
    have husr : myTeamRecordsOf [DBModel.user currentUser] = [] := rfl
    simp only [List.flatten_cons, List.flatten_nil]
    rw [myTeamRecordsOf_append, myTeamRecordsOf_append, myTeamRecordsOf_append,
      myTeamRecordsOf_append, myTeamRecordsOf_append, myTeamRecordsOf_append,
      myTeamRecordsOf_append, ht, htm2, hsys, hpref2, hroles2, husr,
      myTeamRecordsOf_map_myTeam, myTeamRecordsOf_nil]
    simp
  refine ⟨rfl, _, by simp, hmt, ?_⟩
  rw [hmt]
  exact deriveMyTeams_join teamUnreads teamMemberships

/-- C5 witness: one unread entry with a matching membership and one without;
the committed My-Team records realize the left join. -/
theorem loadMe_myteam_left_join_witness :
    (loadMe envTeams "serverA" {}).1 = { currentUser := some u1, error := none } ∧
    ∃ ms, Effect.batchCommit ms ∈ (loadMe envTeams "serverA" {}).2 ∧
      myTeamRecordsOf ms = deriveMyTeams
        [{ team_id := "t1", msg_count := 3, mention_count := 2 },
          { team_id := "t2", msg_count := 0, mention_count := 0 }]
        [{ team_id := "t1", roles := "team_user" }] ∧
      List.Forall₂ (fun (rec : MyTeam) (unread : TeamUnread) =>
          rec.id = unread.team_id ∧
          ((∃ m ∈ [({ team_id := "t1", roles := "team_user" } : TeamMembership)],
              m.team_id = unread.team_id ∧ rec.roles = m.roles) ∨
            ((∀ m ∈ [({ team_id := "t1", roles := "team_user" } : TeamMembership)],
              m.team_id ≠ unread.team_id) ∧ rec.roles = "")))
        (myTeamRecordsOf ms)
        ([{ team_id := "t1", msg_count := 3, mention_count := 2 },
          { team_id := "t2", msg_count := 0, mention_count := 0 }] : List TeamUnread) :=
  loadMe_myteam_left_join envTeams "serverA" {} teamsClient u1
    [{ id := "t1" }] [{ team_id := "t1", roles := "team_user" }]
    [{ team_id := "t1", msg_count := 3, mention_count := 2 },
      { team_id := "t2", msg_count := 0, mention_count := 0 }]
    [] "{}" "{}" []
    rfl rfl rfl rfl rfl rfl rfl rfl rfl rfl rfl

/-- C6: the set of role names `loadMe` resolves equals the deduplicated union
of the current user's space-separated role tokens and every team membership's
role tokens; and were that set empty, no remote role-fetch call would occur
and `loadMe` would still succeed. -/
theorem loadMe_role_resolution_set (env : Env) (serverUrl : String) (args : LoadMeArgs)
    (client : Client) (currentUser : UserProfile)
    (teams : List Team) (teamMemberships : List TeamMembership)
    (teamUnreads : List TeamUnread) (preferences : List Preference)
    (config license : String) (rolesByName : List Role)
    (hdb : env.serverDatabases serverUrl = some { operator := okOperator })
    (hc : env.getClient serverUrl = some client)
    (hattach : (match args.deviceToken with
      | some deviceToken => client.attachDevice deviceToken
      | none => Except.ok ()) = Except.ok ())
    (huser : (match args.user with
      | some u => Except.ok u
      | none => client.getMe) = Except.ok currentUser)
    (hteams : client.getMyTeams = .ok teams)
    (htm : client.getMyTeamMembers = .ok teamMemberships)
    (htu : client.getMyTeamUnreads = .ok teamUnreads)
    (hpref : client.getMyPreferences = .ok preferences)
    (hcfg : client.getClientConfigOld = .ok config)
    (hlic : client.getClientLicenseOld = .ok license)
    (hroles : client.getRolesByNames (loadMeRolesToLoad currentUser teamMemberships)
      = .ok rolesByName) :
    (loadMeRolesToLoad currentUser teamMemberships).toFinset
        = (currentUser.roles.splitOn " ").toFinset ∪
          ((teamMemberships.map fun m => m.roles.splitOn " ").flatten).toFinset ∧
    (loadMeRolesToLoad currentUser teamMemberships).Nodup ∧
    (loadMeRolesToLoad currentUser teamMemberships = [] →
      (∀ names, Effect.roleFetchCall names ∉ (loadMe env serverUrl args).2) ∧
      (loadMe env serverUrl args).1
        = { currentUser := some currentUser, error := none }) := by
  refine ⟨?_, nodup_jsSetDedup _, ?_⟩
  · ext a
    simp [loadMeRolesToLoad, loadMeRoleTokens, mem_jsSetDedup]
  · intro hempty
    have hsix : sixRequestJoin client
        = .ok { teams := teams, teamMemberships := teamMemberships,
                teamUnreads := teamUnreads, preferences := preferences,
                config := config, license := license } := by
      unfold sixRequestJoin
      rw [hteams, htm, htu, hpref, hcfg, hlic]
      rfl
    have hmain : loadMe env serverUrl args = loadMeMain client okOperator currentUser :=
      loadMe_reduces env serverUrl args { operator := okOperator } client currentUser
        hdb hc hattach huser
    obtain ⟨rolesRecords, effects, heq, -, -, hempty2⟩ :=
      loadMeMain_success client currentUser _ rolesByName hsix hroles
    have heffs : effects = [] := hempty2 hempty
    subst heffs
    rw [hmain, heq]
    constructor
    · intro names hmem
      simp at hmem
    · rfl

/-- C6 witness: concrete instantiation with one membership; the set equality
and dedup hold, and the empty-set conditional is available. -/
theorem loadMe_role_resolution_set_witness :
    (loadMeRolesToLoad u1 [{ team_id := "t1", roles := "team_user" }]).toFinset
        = (u1.roles.splitOn " ").toFinset ∪
          ((([({ team_id := "t1", roles := "team_user" } : TeamMembership)]).map
            fun m => m.roles.splitOn " ").flatten).toFinset ∧
    (loadMeRolesToLoad u1 [{ team_id := "t1", roles := "team_user" }]).Nodup ∧
    (loadMeRolesToLoad u1 [{ team_id := "t1", roles := "team_user" }] = [] →
      (∀ names, Effect.roleFetchCall names ∉ (loadMe envTeams "serverA" {}).2) ∧
      (loadMe envTeams "serverA" {}).1
        = { currentUser := some u1, error := none }) :=
  loadMe_role_resolution_set envTeams "serverA" {} teamsClient u1
    [{ id := "t1" }] [{ team_id := "t1", roles := "team_user" }]
    [{ team_id := "t1", msg_count := 3, mention_count := 2 },
      { team_id := "t2", msg_count := 0, mention_count := 0 }]
    [] "{}" "{}" []
    rfl rfl rfl rfl rfl rfl rfl rfl rfl rfl rfl

theorem dbuser_injective : Function.Injective DBModel.user := by
  intro a b h
  injection h

/-- The fetch-only fan-out of `fetchProfilesPerChannels` never commits. -/
theorem inner_fanout_no_commit (env : Env) (serverUrl : String)
    (channelIds : List String) (excludeUserId : Option String) (ms : List DBModel) :
    Effect.batchCommit ms ∉ ((channelIds.map fun id =>
      fetchProfilesInChannel env serverUrl id excludeUserId true).map Prod.snd).flatten := by
  intro hms
  rw [List.mem_flatten] at hms
  obtain ⟨tr, htr, hmem⟩ := hms
  rw [List.mem_map] at htr
  obtain ⟨res, hres, rfl⟩ := htr
  rw [List.mem_map] at hres
  obtain ⟨id, -, rfl⟩ := hres
  obtain ⟨e, he⟩ := fetchOnly_inChannel_effects env serverUrl id excludeUserId _ hmem
  exact Effect.noConfusion he

/-- C4: with persistence enabled, `fetchProfilesPerChannels` commits exactly
one combined batch whose user set is the deduplicated union of the users
returned by the per-channel (fetch-only) fetches with the excluded user
removed; a per-channel error entry affects neither the other channels'
entries nor the committed set. -/
theorem perChannels_commit_dedup_union (env : Env) (serverUrl : String)
    (channelIds : List String) (ex : String)
    (hdb : env.serverDatabases serverUrl = some { operator := okOperator }) :
    ∃ data,
      (fetchProfilesPerChannels env serverUrl channelIds (some ex) false).1
        = { data := some data, error := none } ∧
      data = channelIds.map (fun id =>
        (fetchProfilesInChannel env serverUrl id (some ex) true).1) ∧
      (∀ ms, Effect.batchCommit ms ∈
          (fetchProfilesPerChannels env serverUrl channelIds (some ex) false).2 →
        ms.Nodup ∧
        (∀ u : UserProfile, DBModel.user u ∈ ms ↔
          ((∃ entry ∈ data, ∃ us, entry.users = some us ∧ u ∈ us) ∧ u.id ≠ ex))) ∧
      ((∃ entry ∈ data, ∃ us, entry.users = some us ∧ ∃ u ∈ us, u.id ≠ ex) →
        ∃ ms, Effect.batchCommit ms ∈
          (fetchProfilesPerChannels env serverUrl channelIds (some ex) false).2) := by
  have hdataeq : (List.map (fun id => fetchProfilesInChannel env serverUrl id (some ex) true) channelIds).map Prod.fst
      = channelIds.map fun id =>
        (fetchProfilesInChannel env serverUrl id (some ex) true).1 := by
    rw [List.map_map]
    rfl
  by_cases hfil : List.filter (fun u => decide (some u.id ≠ some ex)) (collectChannelUsers ((List.map (fun id => fetchProfilesInChannel env serverUrl id (some ex) true) channelIds).map Prod.fst)) = []
  · have heq : fetchProfilesPerChannels env serverUrl channelIds (some ex) false
        = ({ data := some ((List.map (fun id => fetchProfilesInChannel env serverUrl id (some ex) true) channelIds).map Prod.fst), error := none }, ((List.map (fun id => fetchProfilesInChannel env serverUrl id (some ex) true) channelIds).map Prod.snd).flatten ++ []) := by
      unfold fetchProfilesPerChannels
      rw [hdb]
      dsimp only
      rw [hfil]
      rfl
    refine ⟨(List.map (fun id => fetchProfilesInChannel env serverUrl id (some ex) true) channelIds).map Prod.fst, by rw [heq], hdataeq, ?_, ?_⟩
    · intro ms hms
      rw [heq] at hms
      rw [List.append_nil] at hms
      exact absurd hms (inner_fanout_no_commit env serverUrl channelIds (some ex) ms)
    · rintro ⟨entry, hentry, us, hus, u, hu, hid⟩
      have humem : u ∈ collectChannelUsers ((List.map (fun id => fetchProfilesInChannel env serverUrl id (some ex) true) channelIds).map Prod.fst) :=
        (mem_collectChannelUsers _ u).mpr ⟨entry, hentry, us, hus, hu⟩
      have hufil : u ∈ List.filter (fun u => decide (some u.id ≠ some ex)) (collectChannelUsers ((List.map (fun id => fetchProfilesInChannel env serverUrl id (some ex) true) channelIds).map Prod.fst)) :=
        List.mem_filter.mpr ⟨humem, by simp [hid]⟩
      rw [hfil] at hufil
      exact absurd hufil (List.not_mem_nil u)
  · have hne : (List.filter (fun u => decide (some u.id ≠ some ex)) (collectChannelUsers ((List.map (fun id => fetchProfilesInChannel env serverUrl id (some ex) true) channelIds).map Prod.fst))).isEmpty = false := by
      cases hEmp : (List.filter (fun u => decide (some u.id ≠ some ex)) (collectChannelUsers ((List.map (fun id => fetchProfilesInChannel env serverUrl id (some ex) true) channelIds).map Prod.fst))).isEmpty
      · rfl
      · exact absurd (by simpa using hEmp) hfil
    have hp : prepareUsers okOperator (List.filter (fun u => decide (some u.id ≠ some ex)) (collectChannelUsers ((List.map (fun id => fetchProfilesInChannel env serverUrl id (some ex) true) channelIds).map Prod.fst)))
        = some (Except.ok ((List.filter (fun u => decide (some u.id ≠ some ex)) (collectChannelUsers ((List.map (fun id => fetchProfilesInChannel env serverUrl id (some ex) true) channelIds).map Prod.fst))).map DBModel.user)) := by
      unfold prepareUsers
      rw [hne]
      rfl
    have hlen2 : ((List.filter (fun u => decide (some u.id ≠ some ex)) (collectChannelUsers ((List.map (fun id => fetchProfilesInChannel env serverUrl id (some ex) true) channelIds).map Prod.fst))).map DBModel.user).length ≠ 0 := by
      rw [List.length_map]
      intro h0
      exact hfil (List.length_eq_zero.mp h0)
    have heq : fetchProfilesPerChannels env serverUrl channelIds (some ex) false
        = ({ data := some ((List.map (fun id => fetchProfilesInChannel env serverUrl id (some ex) true) channelIds).map Prod.fst), error := none },
          ((List.map (fun id => fetchProfilesInChannel env serverUrl id (some ex) true) channelIds).map Prod.snd).flatten ++ [Effect.batchCommit ((List.filter (fun u => decide (some u.id ≠ some ex)) (collectChannelUsers ((List.map (fun id => fetchProfilesInChannel env serverUrl id (some ex) true) channelIds).map Prod.fst))).map DBModel.user)]) := by
      unfold fetchProfilesPerChannels
      rw [hdb]
      dsimp only
      rw [hp]
      dsimp only
      rw [if_pos hlen2]
      rfl
    refine ⟨(List.map (fun id => fetchProfilesInChannel env serverUrl id (some ex) true) channelIds).map Prod.fst, by rw [heq], hdataeq, ?_, ?_⟩
    · intro ms hms
      rw [heq, List.mem_append] at hms
      rcases hms with hms | hms
      · exact absurd hms (inner_fanout_no_commit env serverUrl channelIds (some ex) ms)
      · rw [List.mem_singleton, Effect.batchCommit.injEq] at hms
        subst hms
        constructor
        · exact List.Nodup.map dbuser_injective
            (List.Nodup.filter _ (nodup_collectChannelUsers _))
        · intro u
          have h1 : DBModel.user u ∈ (List.filter (fun u => decide (some u.id ≠ some ex)) (collectChannelUsers ((List.map (fun id => fetchProfilesInChannel env serverUrl id (some ex) true) channelIds).map Prod.fst))).map DBModel.user ↔ u ∈ List.filter (fun u => decide (some u.id ≠ some ex)) (collectChannelUsers ((List.map (fun id => fetchProfilesInChannel env serverUrl id (some ex) true) channelIds).map Prod.fst)) := by
            constructor
            · intro h
              rw [List.mem_map] at h
              obtain ⟨v, hv, hvu⟩ := h
              injection hvu with h2
              rwa [h2] at hv
            · intro h
              exact List.mem_map_of_mem _ h
          rw [h1, List.mem_filter, mem_collectChannelUsers]
          simp
    · intro hx
      exact ⟨(List.filter (fun u => decide (some u.id ≠ some ex)) (collectChannelUsers ((List.map (fun id => fetchProfilesInChannel env serverUrl id (some ex) true) channelIds).map Prod.fst))).map DBModel.user, by rw [heq]; simp⟩

/-- C4 witness: two channels, one failing; the committed set and per-channel
entries are exactly as characterized. -/
theorem perChannels_commit_dedup_union_witness :
    ∃ data,
      (fetchProfilesPerChannels envPerChannel "serverA" ["c1", "bad"] (some "ex") false).1
        = { data := some data, error := none } ∧
      data = ["c1", "bad"].map (fun id =>
        (fetchProfilesInChannel envPerChannel "serverA" id (some "ex") true).1) ∧
      (∀ ms, Effect.batchCommit ms ∈
          (fetchProfilesPerChannels envPerChannel "serverA" ["c1", "bad"] (some "ex") false).2 →
        ms.Nodup ∧
        (∀ u : UserProfile, DBModel.user u ∈ ms ↔
          ((∃ entry ∈ data, ∃ us, entry.users = some us ∧ u ∈ us) ∧ u.id ≠ "ex"))) ∧
      ((∃ entry ∈ data, ∃ us, entry.users = some us ∧ ∃ u ∈ us, u.id ≠ "ex") →
        ∃ ms, Effect.batchCommit ms ∈
          (fetchProfilesPerChannels envPerChannel "serverA" ["c1", "bad"] (some "ex") false).2) :=
  perChannels_commit_dedup_union envPerChannel "serverA" ["c1", "bad"] "ex" rfl

end Mattermost
